import Mathlib

/-!
Shallow embedding of the Ethereum-Indexer core (codec layer, event model,
persistence store, pipeline driver) taken from `src/types/mod.rs`,
`src/database.rs` and `src/decode.rs`, together with theorems settling the
spec claims about it.

Bytes are modelled as `Nat` (values below 256 where it matters), byte
buffers as `List Nat`, 256-bit unsigned values as `Nat` below `2 ^ 256`,
256-bit signed values as `Int` in `[-2 ^ 255, 2 ^ 255)`, and 128-bit
unsigned values as `Nat` below `2 ^ 128`.
-/

set_option maxRecDepth 8000

namespace EthIndexer

/-- Result of a Rust `FromSql` call: the implementations in
`src/types/mod.rs` either return `Ok` or panic inside a slice/assert
operation; the `err` constructor models the `Err` branch of the Rust
return type `Result<Self, Box<dyn Error>>`, which no codec in this
repository ever takes. -/
inductive SqlResult (α : Type) where
  | ok : α → SqlResult α
  | panicked : SqlResult α
  | err : String → SqlResult α
deriving DecidableEq

/-- Big-endian encoding of `v` into exactly `w` bytes, keeping only
`v % 256 ^ w` (exactly what writing the low `w` bytes of a machine
integer does). -/
def natToBE : Nat → Nat → List Nat
  | 0, _ => []
  | w + 1, v => natToBE w (v / 256) ++ [v % 256]

/-- Big-endian interpretation of a byte buffer as an unsigned number,
as `U256::from_big_endian` / `u128::from_be_bytes` do. -/
def natFromBE (bs : List Nat) : Nat :=
  bs.foldl (fun acc b => acc * 256 + b) 0

/-- Codec for the 20-byte `Address` wrapper: `to_sql` appends
`self.as_bytes()` verbatim. -/
def addressToSql (a : List Nat) : List Nat := a

/-- Decoder for `Address`: `H160::from_slice` asserts that the buffer is
exactly 20 bytes long and panics otherwise. -/
def addressFromSql (raw : List Nat) : SqlResult (List Nat) :=
  if raw.length = 20 then .ok raw else .panicked

/-- Codec for the `WI256` wrapper: `to_big_endian` writes the raw 32-byte
two's-complement form of the signed value. -/
def wi256ToSql (v : Int) : List Nat := natToBE 32 (v % (2 ^ 256)).toNat

/-- Decoder for `WI256`: `I256::from_raw(U256::from_big_endian(raw))`.
`U256::from_big_endian` zero-extends any buffer of at most 32 bytes and
panics on longer ones; `from_raw` reinterprets the bits as
two's complement. -/
def wi256FromSql (raw : List Nat) : SqlResult Int :=
  if raw.length ≤ 32 then
    .ok (if natFromBE raw < 2 ^ 255 then (natFromBE raw : Int)
         else (natFromBE raw : Int) - 2 ^ 256)
  else .panicked

/-- Codec for the `WU256` wrapper: 32-byte big-endian form. -/
def wu256ToSql (v : Nat) : List Nat := natToBE 32 v

/-- Decoder for `WU256`: `U256::from_big_endian` zero-extends any buffer
of at most 32 bytes and panics on longer ones. -/
def wu256FromSql (raw : List Nat) : SqlResult Nat :=
  if raw.length ≤ 32 then .ok (natFromBE raw) else .panicked

/-- Codec for the `Wu128` wrapper: `u128::to_be_bytes`, 16 bytes. -/
def wu128ToSql (v : Nat) : List Nat := natToBE 16 v

/-- Decoder for `Wu128`: `bytes.copy_from_slice(&raw[..16])` reads exactly
the first 16 bytes, panicking when fewer are available and ignoring any
trailing bytes. -/
def wu128FromSql (raw : List Nat) : SqlResult Nat :=
  if 16 ≤ raw.length then .ok (natFromBE (raw.take 16)) else .panicked

/-- Envelope metadata delivered with each stream item (`LogMeta`):
transaction hash bytes, block number (`u64`), contract address bytes. -/
structure LogMeta where
  transaction_hash : List Nat
  block_number : Nat
  address : List Nat
deriving DecidableEq

/-- Row of the `ethereum_logs` table as written by
`insert_transaction_logs` (the SERIAL id and the store-assigned timestamp
are omitted: the insert does not supply them). -/
structure EthLogRow where
  transaction_hash : List Nat
  block_number : List Nat
  address : List Nat
deriving DecidableEq

/-- Decoded `Swap` payload (`SwapFilter`): signed 256-bit amounts,
unsigned 256-bit sqrt price, unsigned 128-bit liquidity, signed 32-bit
tick. -/
structure SwapFilter where
  sender : List Nat
  recipient : List Nat
  amount_0 : Int
  amount_1 : Int
  sqrt_price_x96 : Nat
  liquidity : Nat
  tick : Int
deriving DecidableEq

/-- Decoded `Burn` payload (`BurnFilter`). -/
structure BurnFilter where
  owner : List Nat
  tick_lower : Int
  tick_upper : Int
  amount : Nat
  amount_0 : Nat
  amount_1 : Nat
deriving DecidableEq

/-- Decoded `Mint` payload (`MintFilter`). -/
structure MintFilter where
  sender : List Nat
  owner : List Nat
  tick_lower : Int
  tick_upper : Int
  amount : Nat
  amount_0 : Nat
  amount_1 : Nat
deriving DecidableEq

/-- Decoded `Flash` payload (`FlashFilter`): four unsigned 256-bit
amounts. -/
structure FlashFilter where
  sender : List Nat
  recipient : List Nat
  amount_0 : Nat
  amount_1 : Nat
  paid_0 : Nat
  paid_1 : Nat
deriving DecidableEq

/-- Row of `swap_logs` as written by `insert_swap_event`.
`ethereum_log_id` is `Option Nat` because the column is nullable; a row
whose insert did not supply it holds `none` (SQL NULL). -/
structure SwapRow where
  ethereum_log_id : Option Nat
  sender_address : List Nat
  receiver_address : List Nat
  amount0 : List Nat
  amount1 : List Nat
  sqrt_price_x96 : List Nat
  liquidity : List Nat
  tick : Int
deriving DecidableEq

/-- Row of `burn_logs` as written by `insert_burn_event`. -/
structure BurnRow where
  ethereum_log_id : Option Nat
  owner_address : List Nat
  tick_lower : Int
  tick_upper : Int
  amount : List Nat
  amount0 : List Nat
  amount1 : List Nat
deriving DecidableEq

/-- Row of `mint_logs` as written by `insert_mint_event`. -/
structure MintRow where
  ethereum_log_id : Option Nat
  sender_address : List Nat
  owner_address : List Nat
  tick_lower : Int
  tick_upper : Int
  amount : List Nat
  amount0 : List Nat
  amount1 : List Nat
deriving DecidableEq

/-- Row of `flash_logs` as written by `insert_flash_event`. -/
structure FlashRow where
  ethereum_log_id : Option Nat
  sender_address : List Nat
  receiver_address : List Nat
  amount0 : List Nat
  amount1 : List Nat
  paid0 : List Nat
  paid1 : List Nat
deriving DecidableEq

/-- Contents of the five tables of the store. -/
structure DBState where
  ethereum_logs : List EthLogRow
  swap_logs : List SwapRow
  burn_logs : List BurnRow
  mint_logs : List MintRow
  flash_logs : List FlashRow
deriving DecidableEq

/-- Empty store. -/
def dbEmpty : DBState := ⟨[], [], [], [], []⟩

/-- `DB::insert_transaction_logs`: inserts transaction hash, the 8-byte
big-endian form of the block number, and the contract address into
`ethereum_logs`. -/
def insert_transaction_logs (meta : LogMeta) (s : DBState) : DBState :=
  { s with ethereum_logs := s.ethereum_logs ++
      [{ transaction_hash := meta.transaction_hash
         block_number := natToBE 8 meta.block_number
         address := addressToSql meta.address }] }

/-- `DB::insert_swap_event`: the INSERT lists only the seven payload
columns, so `ethereum_log_id` is left NULL. -/
def insert_swap_event (e : SwapFilter) (s : DBState) : DBState :=
  { s with swap_logs := s.swap_logs ++
      [{ ethereum_log_id := none
         sender_address := addressToSql e.sender
         receiver_address := addressToSql e.recipient
         amount0 := wi256ToSql e.amount_0
         amount1 := wi256ToSql e.amount_1
         sqrt_price_x96 := wu256ToSql e.sqrt_price_x96
         liquidity := wu128ToSql e.liquidity
         tick := e.tick }] }

/-- `DB::insert_burn_event`: `ethereum_log_id` is left NULL. -/
def insert_burn_event (e : BurnFilter) (s : DBState) : DBState :=
  { s with burn_logs := s.burn_logs ++
      [{ ethereum_log_id := none
         owner_address := addressToSql e.owner
         tick_lower := e.tick_lower
         tick_upper := e.tick_upper
         amount := wu128ToSql e.amount
         amount0 := wu256ToSql e.amount_0
         amount1 := wu256ToSql e.amount_1 }] }

/-- `DB::insert_mint_event`: `ethereum_log_id` is left NULL. -/
def insert_mint_event (e : MintFilter) (s : DBState) : DBState :=
  { s with mint_logs := s.mint_logs ++
      [{ ethereum_log_id := none
         sender_address := addressToSql e.sender
         owner_address := addressToSql e.owner
         tick_lower := e.tick_lower
         tick_upper := e.tick_upper
         amount := wu128ToSql e.amount
         amount0 := wu256ToSql e.amount_0
         amount1 := wu256ToSql e.amount_1 }] }

/-- `DB::insert_flash_event`. The source binds
`let paid0: WU256 = events.amount_0.into()` and
`let paid1: WU256 = events.amount_1.into()`, so the `paid0` and `paid1`
columns receive the encodings of `amount_0` and `amount_1`, not of
`paid_0` and `paid_1`; `ethereum_log_id` is left NULL. -/
def insert_flash_event (e : FlashFilter) (s : DBState) : DBState :=
  { s with flash_logs := s.flash_logs ++
      [{ ethereum_log_id := none
         sender_address := addressToSql e.sender
         receiver_address := addressToSql e.recipient
         amount0 := wu256ToSql e.amount_0
         amount1 := wu256ToSql e.amount_1
         paid0 := wu256ToSql e.amount_0
         paid1 := wu256ToSql e.amount_1 }] }

/-- Tagged union of decoded events, as dispatched on by `decode_events`.
The four modeled variants come from the generated
`USDC_WETH_POOLEvents` enum; `other` stands for every further variant of
that enum, all of which the source's wildcard arm drops. -/
inductive Event where
  | swap : SwapFilter → Event
  | burn : BurnFilter → Event
  | mint : MintFilter → Event
  | flash : FlashFilter → Event
  | other : Event
deriving DecidableEq

def isSwap : Event → Bool
  | .swap _ => true
  | _ => false

def isBurn : Event → Bool
  | .burn _ => true
  | _ => false

def isMint : Event → Bool
  | .mint _ => true
  | _ => false

def isFlash : Event → Bool
  | .flash _ => true
  | _ => false

/-- A single storage operation issued by the pipeline. -/
inductive DbOp where
  | insertLog : LogMeta → DbOp
  | insertSwap : SwapFilter → DbOp
  | insertBurn : BurnFilter → DbOp
  | insertMint : MintFilter → DbOp
  | insertFlash : FlashFilter → DbOp
deriving DecidableEq

/-- The payload-insert operation the `match` in `decode_events` selects
for an event: exactly one for each modeled variant, none for the
wildcard arm. -/
def payloadOp : Event → Option DbOp
  | .swap f => some (.insertSwap f)
  | .burn f => some (.insertBurn f)
  | .mint f => some (.insertMint f)
  | .flash f => some (.insertFlash f)
  | .other => none

/-- Effect of one storage operation on the store. -/
def applyOp : DbOp → DBState → DBState
  | .insertLog m, s => insert_transaction_logs m s
  | .insertSwap f, s => insert_swap_event f s
  | .insertBurn f, s => insert_burn_event f s
  | .insertMint f, s => insert_mint_event f s
  | .insertFlash f, s => insert_flash_event f s

/-- One item of the upstream stream: either a decoded event with its
envelope metadata, or a transport error item (`Some(Err(_))` from the
ethers event stream). -/
inductive StreamItem where
  | ok : Event → LogMeta → StreamItem
  | err : StreamItem
deriving DecidableEq

/-- The `decode_events` loop of `src/decode.rs` over a finite stream,
parametrised by a failure oracle on storage operations (`fail op = true`
means that execution of `op` returns `Err`, which the `?` operator
propagates). The `while let Some(Ok((event, meta)))` head exits the loop
on both stream exhaustion and a transport error item, returning `Ok`;
a failed storage operation aborts with `Except.error`, carrying the
store contents at the moment of failure (every earlier insert is
already committed and is not rolled back). -/
def decode_events (fail : DbOp → Bool) :
    List StreamItem → DBState → Except DBState DBState
  | [], s => .ok s
  | .err :: _, s => .ok s
  | .ok e m :: rest, s =>
    if fail (.insertLog m) then .error s
    else
      match payloadOp e with
      | none => decode_events fail rest (insert_transaction_logs m s)
      | some op =>
        if fail op then .error (insert_transaction_logs m s)
        else decode_events fail rest (applyOp op (insert_transaction_logs m s))

/-- Oracle under which every storage operation succeeds. -/
def noFail : DbOp → Bool := fun _ => false

/-- A finite stream in which every item is a decoded pair. -/
def toStream (pairs : List (Event × LogMeta)) : List StreamItem :=
  pairs.map fun p => .ok p.1 p.2

/-- Sequence of storage operations the loop issues on an all-ok stream,
in execution order: for each item, the envelope insert, then the payload
insert selected by the variant (none for `other`). -/
def runTrace : List (Event × LogMeta) → List DbOp
  | [] => []
  | (e, m) :: rest => .insertLog m :: ((payloadOp e).toList ++ runTrace rest)

/-- Column of a table definition: name and SQL type text, as written in
the `CREATE TABLE` statements of `DB::create_table`. -/
structure ColumnDef where
  name : String
  ty : String
deriving DecidableEq

/-- One table definition from the schema batch. -/
structure TableDef where
  name : String
  columns : List ColumnDef
deriving DecidableEq

def ethereumLogsDef : TableDef :=
  ⟨"ethereum_logs",
   [⟨"id", "SERIAL PRIMARY KEY"⟩,
    ⟨"transaction_hash", "BYTEA NOT NULL"⟩,
    ⟨"block_number", "BYTEA NOT NULL"⟩,
    ⟨"address", "BYTEA NOT NULL"⟩,
    ⟨"timestamp", "TIMESTAMPTZ DEFAULT NOW() NOT NULL"⟩]⟩

def swapLogsDef : TableDef :=
  ⟨"swap_logs",
   [⟨"id", "SERIAL PRIMARY KEY"⟩,
    ⟨"ethereum_log_id", "INT REFERENCES ethereum_logs(id) ON DELETE CASCADE"⟩,
    ⟨"sender_address", "BYTEA NOT NULL"⟩,
    ⟨"receiver_address", "BYTEA NOT NULL"⟩,
    ⟨"amount0", "BYTEA NOT NULL"⟩,
    ⟨"amount1", "BYTEA NOT NULL"⟩,
    ⟨"sqrt_price_x96", "BYTEA NOT NULL"⟩,
    ⟨"liquidity", "BYTEA NOT NULL"⟩,
    ⟨"tick", "INT NOT NULL"⟩,
    ⟨"timestamp", "TIMESTAMPTZ DEFAULT NOW() NOT NULL"⟩]⟩

def burnLogsDef : TableDef :=
  ⟨"burn_logs",
   [⟨"id", "SERIAL PRIMARY KEY"⟩,
    ⟨"ethereum_log_id", "INT REFERENCES ethereum_logs(id) ON DELETE CASCADE"⟩,
    ⟨"owner_address", "BYTEA NOT NULL"⟩,
    ⟨"tick_lower", "INT NOT NULL"⟩,
    ⟨"tick_upper", "INT NOT NULL"⟩,
    ⟨"amount", "BYTEA NOT NULL"⟩,
    ⟨"amount0", "BYTEA NOT NULL"⟩,
    ⟨"amount1", "BYTEA NOT NULL"⟩,
    ⟨"timestamp", "TIMESTAMPTZ DEFAULT NOW() NOT NULL"⟩]⟩

def mintLogsDef : TableDef :=
  ⟨"mint_logs",
   [⟨"id", "SERIAL PRIMARY KEY"⟩,
    ⟨"ethereum_log_id", "INT REFERENCES ethereum_logs(id) ON DELETE CASCADE"⟩,
    ⟨"sender_address", "BYTEA NOT NULL"⟩,
    ⟨"owner_address", "BYTEA NOT NULL"⟩,
    ⟨"tick_lower", "INT NOT NULL"⟩,
    ⟨"tick_upper", "INT NOT NULL"⟩,
    ⟨"amount", "BYTEA NOT NULL"⟩,
    ⟨"amount0", "BYTEA NOT NULL"⟩,
    ⟨"amount1", "BYTEA NOT NULL"⟩,
    ⟨"timestamp", "TIMESTAMPTZ DEFAULT NOW() NOT NULL"⟩]⟩

def flashLogsDef : TableDef :=
  ⟨"flash_logs",
   [⟨"id", "SERIAL PRIMARY KEY"⟩,
    ⟨"ethereum_log_id", "INT REFERENCES ethereum_logs(id) ON DELETE CASCADE"⟩,
    ⟨"sender_address", "BYTEA NOT NULL"⟩,
    ⟨"receiver_address", "BYTEA NOT NULL"⟩,
    ⟨"amount0", "BYTEA NOT NULL"⟩,
    ⟨"amount1", "BYTEA NOT NULL"⟩,
    ⟨"paid0", "BYTEA NOT NULL"⟩,
    ⟨"paid1", "BYTEA NOT NULL"⟩,
    ⟨"timestamp", "TIMESTAMPTZ DEFAULT NOW() NOT NULL"⟩]⟩

/-- The five statements of the `batch_execute` in `DB::create_table`, in
source order. -/
def schemaStatements : List TableDef :=
  [ethereumLogsDef, swapLogsDef, burnLogsDef, mintLogsDef, flashLogsDef]

/-- A schema is the list of existing tables. -/
def hasTable (s : List TableDef) (n : String) : Bool :=
  s.any fun u => u.name == n

/-- Semantics of one `CREATE TABLE` statement: on an existing table name
it errors without the `IF NOT EXISTS` qualifier and is a no-op with it;
otherwise it appends the table. -/
def execCreateTable (ifNotExists : Bool) (t : TableDef) (s : List TableDef) :
    Except String (List TableDef) :=
  if hasTable s t.name then
    if ifNotExists then .ok s
    else .error ("relation " ++ t.name ++ " already exists")
  else .ok (s ++ [t])

/-- Semantics of `batch_execute`: run the statements in order, stopping
at the first error. -/
def batchExecute (stmts : List (Bool × TableDef)) (s : List TableDef) :
    Except String (List TableDef) :=
  match stmts with
  | [] => .ok s
  | stmt :: rest => do
    let s1 ← execCreateTable stmt.1 stmt.2 s
    batchExecute rest s1

/-- `DB::create_table`: one batch of five `CREATE TABLE IF NOT EXISTS`
statements. -/
def create_table (s : List TableDef) : Except String (List TableDef) :=
  batchExecute (schemaStatements.map fun t => (true, t)) s

/-- Total effect of a list of `CREATE TABLE IF NOT EXISTS` statements. -/
def applyStmts (ts : List TableDef) (s : List TableDef) : List TableDef :=
  ts.foldl (fun acc t => if hasTable acc t.name then acc else acc ++ [t]) s

/-- Projection keeping only payload-insert operations of a trace. -/
def payloadPart : DbOp → Option DbOp
  | .insertLog _ => none
  | op => some op

/-- Flash event probe whose `paid_0`/`paid_1` differ from
`amount_0`/`amount_1`. -/
def flashProbe : FlashFilter :=
  ⟨List.replicate 20 0, List.replicate 20 0, 0, 0, 1, 2⟩

/-- Failure oracle making exactly the swap payload insert fail. -/
def failSwapOnly : DbOp → Bool
  | .insertSwap _ => true
  | _ => false

/-- All-zero swap payload probe. -/
def swapProbe : SwapFilter :=
  ⟨List.replicate 20 0, List.replicate 20 0, 0, 0, 0, 0, 0⟩

/-- Envelope metadata probe. -/
def metaProbe : LogMeta := ⟨List.replicate 32 0, 0, List.replicate 20 0⟩

theorem natFromBE_append_single (bs : List Nat) (b : Nat) :
    natFromBE (bs ++ [b]) = natFromBE bs * 256 + b := by
  simp [natFromBE, List.foldl_append]

theorem natToBE_length (w v : Nat) : (natToBE w v).length = w := by
  induction w generalizing v with
  | zero => rfl
  | succ w ih => simp [natToBE, ih]

theorem natFromBE_natToBE (w v : Nat) (h : v < 256 ^ w) :
    natFromBE (natToBE w v) = v := by
  induction w generalizing v with
  | zero =>
    have : v = 0 := by simpa using h
    simp [this, natToBE, natFromBE]
  | succ w ih =>
    have hd : v / 256 < 256 ^ w := by
      rw [Nat.div_lt_iff_lt_mul (by norm_num : 0 < 256)]
      calc v < 256 ^ (w + 1) := h
        _ = 256 ^ w * 256 := by ring
    rw [natToBE, natFromBE_append_single, ih (v / 256) hd]
    omega

theorem pow256_32 : (256 : Nat) ^ 32 = 2 ^ 256 := by norm_num

theorem pow256_16 : (256 : Nat) ^ 16 = 2 ^ 128 := by norm_num

/-- C2: for each of the four codecs of `src/types/mod.rs` (20-byte
address, signed 256-bit, unsigned 256-bit, unsigned 128-bit), decoding
the encoding of any representable value returns exactly that value —
on the full domain, including zero, the maxima and the signed minimum. -/
theorem codec_roundtrip (a : List Nat) (vi : Int) (vu vl : Nat)
    (ha : a.length = 20)
    (hlo : -(2 ^ 255) ≤ vi) (hhi : vi < 2 ^ 255)
    (hu : vu < 2 ^ 256) (hl : vl < 2 ^ 128) :
    addressFromSql (addressToSql a) = .ok a ∧
    wi256FromSql (wi256ToSql vi) = .ok vi ∧
    wu256FromSql (wu256ToSql vu) = .ok vu ∧
    wu128FromSql (wu128ToSql vl) = .ok vl := by
  refine ⟨?_, ?_, ?_, ?_⟩
  · simp [addressFromSql, addressToSql, ha]
  · have hb : (vi % 2 ^ 256).toNat < 256 ^ 32 := by rw [pow256_32]; omega
    have hn : natFromBE (wi256ToSql vi) = (vi % 2 ^ 256).toNat :=
      natFromBE_natToBE 32 _ hb
    have hlen : (wi256ToSql vi).length = 32 := natToBE_length 32 _
    rw [wi256FromSql, if_pos (by simp [hlen]), hn]
    split
    next hbr =>
      have he : ((vi % 2 ^ 256).toNat : Int) = vi := by omega
      rw [he]
    next hbr =>
      have he : ((vi % 2 ^ 256).toNat : Int) - 2 ^ 256 = vi := by omega
      rw [he]
  · have hb : vu < 256 ^ 32 := by rw [pow256_32]; exact hu
    have hlen : (wu256ToSql vu).length = 32 := natToBE_length 32 _
    rw [wu256FromSql, if_pos (by simp [hlen]), wu256ToSql,
      natFromBE_natToBE 32 vu hb]
  · have hb : vl < 256 ^ 16 := by rw [pow256_16]; exact hl
    have hlen : (wu128ToSql vl).length = 16 := natToBE_length 16 _
    have htake : (wu128ToSql vl).take 16 = wu128ToSql vl :=
      List.take_of_length_le (by rw [hlen])
    rw [wu128FromSql, if_pos (by simp [hlen]), htake, wu128ToSql,
      natFromBE_natToBE 16 vl hb]

/-- Witness for `codec_roundtrip` at a concrete 20-byte address, the
signed minimum, the unsigned 256-bit maximum and zero. -/
theorem codec_roundtrip_witness :
    addressFromSql (addressToSql (List.replicate 20 7)) =
      .ok (List.replicate 20 7) ∧
    wi256FromSql (wi256ToSql (-(2 ^ 255))) = .ok (-(2 ^ 255)) ∧
    wu256FromSql (wu256ToSql (2 ^ 256 - 1)) = .ok (2 ^ 256 - 1) ∧
    wu128FromSql (wu128ToSql 0) = .ok 0 :=
  codec_roundtrip (List.replicate 20 7) (-(2 ^ 255)) (2 ^ 256 - 1) 0
    (by simp) (le_refl _) (by norm_num) (by norm_num) (by norm_num)

/-- C3: evaluation of the decoders on undersized buffers. The address
and 128-bit decoders panic (slice assertion), and the two 256-bit
decoders succeed by silently zero-extending the short buffer; no decoder
returns an invalid-length error value. -/
theorem undersized_decode_no_length_error :
    addressFromSql [] = .panicked ∧
    wu128FromSql [0] = .panicked ∧
    wi256FromSql [1] = .ok 1 ∧
    wu256FromSql [1] = .ok 1 := by
  refine ⟨rfl, rfl, ?_, rfl⟩
  rw [wi256FromSql, if_pos (by norm_num)]
  norm_num [natFromBE]

/-- C10: the 128-bit decoder applied to a buffer extending a 16-byte
prefix by arbitrary trailing bytes succeeds with the value of the first
16 bytes alone; the trailing bytes are ignored and never cause an
error. -/
theorem wu128_ignores_trailing_bytes (bs extra : List Nat)
    (h : bs.length = 16) :
    wu128FromSql (bs ++ extra) = .ok (natFromBE bs) := by
  have hlen : 16 ≤ (bs ++ extra).length := by simp [h]
  have htake : (bs ++ extra).take 16 = bs := by
    rw [← h]
    exact List.take_left bs extra
  rw [wu128FromSql, if_pos hlen, htake]

/-- Witness for `wu128_ignores_trailing_bytes` on a 16-byte zero buffer
followed by a nonzero trailing byte. -/
theorem wu128_ignores_trailing_bytes_witness :
    wu128FromSql (List.replicate 16 0 ++ [255]) =
      .ok (natFromBE (List.replicate 16 0)) :=
  wu128_ignores_trailing_bytes (List.replicate 16 0) [255] (by simp)

/-- C1: the row persisted for a Flash event holds the encodings of the
event's `amount_0`/`amount_1` in the `paid0`/`paid1` columns; at
`flashProbe`, where the paid fields differ from the amounts, the stored
`paid0`/`paid1` are not the encodings of `paid_0`/`paid_1`. -/
theorem flash_insert_drops_paid_fields :
    ∃ r, (insert_flash_event flashProbe dbEmpty).flash_logs = [r] ∧
      r.paid0 = wu256ToSql flashProbe.amount_0 ∧
      r.paid1 = wu256ToSql flashProbe.amount_1 ∧
      r.paid0 ≠ wu256ToSql flashProbe.paid_0 ∧
      r.paid1 ≠ wu256ToSql flashProbe.paid_1 :=
  ⟨_, rfl, rfl, rfl, by decide, by decide⟩

/-- C4: every payload insert writes its row with `ethereum_log_id`
NULL — the INSERT statements never mention the column and the insert
functions take no envelope identifier, so the stored payload row carries
no reference to its envelope row. -/
theorem payload_rows_unlinked (es : SwapFilter) (eb : BurnFilter)
    (em : MintFilter) (ef : FlashFilter) (s : DBState) :
    ((insert_swap_event es s).swap_logs.getLast?).map
        SwapRow.ethereum_log_id = some none ∧
    ((insert_burn_event eb s).burn_logs.getLast?).map
        BurnRow.ethereum_log_id = some none ∧
    ((insert_mint_event em s).mint_logs.getLast?).map
        MintRow.ethereum_log_id = some none ∧
    ((insert_flash_event ef s).flash_logs.getLast?).map
        FlashRow.ethereum_log_id = some none := by
  refine ⟨?_, ?_, ?_, ?_⟩ <;>
    simp [insert_swap_event, insert_burn_event, insert_mint_event,
      insert_flash_event]

set_option maxHeartbeats 1600000 in
/-- C5: feeding the loop N decoded pairs inserts exactly N envelope
rows, and per pair exactly one payload row in the table matching its
variant tag; a pair with an unmodeled variant adds no payload row and
raises no error. -/
theorem pipeline_row_counts (pairs : List (Event × LogMeta)) (s : DBState) :
    ∃ s2, decode_events noFail (toStream pairs) s = Except.ok s2 ∧
      s2.ethereum_logs.length = s.ethereum_logs.length + pairs.length ∧
      s2.swap_logs.length =
        s.swap_logs.length + pairs.countP (fun p => isSwap p.1) ∧
      s2.burn_logs.length =
        s.burn_logs.length + pairs.countP (fun p => isBurn p.1) ∧
      s2.mint_logs.length =
        s.mint_logs.length + pairs.countP (fun p => isMint p.1) ∧
      s2.flash_logs.length =
        s.flash_logs.length + pairs.countP (fun p => isFlash p.1) := by
  induction pairs generalizing s with
  | nil => exact ⟨s, rfl, by simp, by simp, by simp, by simp, by simp⟩
  | cons p rest ih =>
    obtain ⟨e, m⟩ := p
    cases e with
    | swap f =>
      obtain ⟨s2, hrun, h1, h2, h3, h4, h5⟩ :=
        ih (insert_swap_event f (insert_transaction_logs m s))
      refine ⟨s2, ?_, ?_, ?_, ?_, ?_, ?_⟩ <;>
        simp_all [toStream, decode_events, noFail, payloadOp, applyOp,
          insert_swap_event, insert_transaction_logs, List.countP_cons,
          isSwap, isBurn, isMint, isFlash] <;> omega
    | burn f =>
      obtain ⟨s2, hrun, h1, h2, h3, h4, h5⟩ :=
        ih (insert_burn_event f (insert_transaction_logs m s))
      refine ⟨s2, ?_, ?_, ?_, ?_, ?_, ?_⟩ <;>
        simp_all [toStream, decode_events, noFail, payloadOp, applyOp,
          insert_burn_event, insert_transaction_logs, List.countP_cons,
          isSwap, isBurn, isMint, isFlash] <;> omega
    | mint f =>
      obtain ⟨s2, hrun, h1, h2, h3, h4, h5⟩ :=
        ih (insert_mint_event f (insert_transaction_logs m s))
      refine ⟨s2, ?_, ?_, ?_, ?_, ?_, ?_⟩ <;>
        simp_all [toStream, decode_events, noFail, payloadOp, applyOp,
          insert_mint_event, insert_transaction_logs, List.countP_cons,
          isSwap, isBurn, isMint, isFlash] <;> omega
    | flash f =>
      obtain ⟨s2, hrun, h1, h2, h3, h4, h5⟩ :=
        ih (insert_flash_event f (insert_transaction_logs m s))
      refine ⟨s2, ?_, ?_, ?_, ?_, ?_, ?_⟩ <;>
        simp_all [toStream, decode_events, noFail, payloadOp, applyOp,
          insert_flash_event, insert_transaction_logs, List.countP_cons,
          isSwap, isBurn, isMint, isFlash] <;> omega
    | other =>
      obtain ⟨s2, hrun, h1, h2, h3, h4, h5⟩ :=
        ih (insert_transaction_logs m s)
      refine ⟨s2, ?_, ?_, ?_, ?_, ?_, ?_⟩ <;>
        simp_all [toStream, decode_events, noFail, payloadOp,
          insert_transaction_logs, List.countP_cons,
          isSwap, isBurn, isMint, isFlash] <;> omega

/-- C6 counterexample: on a stream that aborts with a transport error
item, the loop head fails to match and `decode_events` returns the same
successful value as on an exhausted stream — the transport error does
not produce a distinguishable failed outcome. -/
theorem stream_error_not_failed :
    decode_events noFail [StreamItem.err] dbEmpty = Except.ok dbEmpty ∧
    decode_events noFail [] dbEmpty = Except.ok dbEmpty :=
  ⟨rfl, rfl⟩

/-- C6 amended: a transport error item makes the `while let` head exit
the loop and `decode_events` return success with the store unchanged,
exactly as on normal stream exhaustion, for every failure oracle,
remaining stream and store. -/
theorem stream_error_silently_stops (fail : DbOp → Bool)
    (rest : List StreamItem) (s : DBState) :
    decode_events fail (StreamItem.err :: rest) s = Except.ok s ∧
    decode_events fail [] s = Except.ok s :=
  ⟨rfl, rfl⟩

/-- C9: when the envelope insert of an item succeeds and its payload
insert fails, the loop aborts with the error, the store at failure
still contains the freshly inserted envelope row (one more than
before, no rollback), and no retry happens — the remaining stream is
never consumed. -/
theorem partial_failure_keeps_envelope (fail : DbOp → Bool) (e : Event)
    (m : LogMeta) (op : DbOp) (rest : List StreamItem) (s : DBState)
    (hEnv : fail (.insertLog m) = false)
    (hOp : payloadOp e = some op)
    (hFail : fail op = true) :
    decode_events fail (StreamItem.ok e m :: rest) s =
      Except.error (insert_transaction_logs m s) ∧
    (insert_transaction_logs m s).ethereum_logs.length =
      s.ethereum_logs.length + 1 := by
  constructor
  · simp [decode_events, hEnv, hOp, hFail]
  · simp [insert_transaction_logs]

/-- Witness for `partial_failure_keeps_envelope` with a concrete swap
item whose payload insert fails. -/
theorem partial_failure_keeps_envelope_witness :
    decode_events failSwapOnly
        [StreamItem.ok (Event.swap swapProbe) metaProbe] dbEmpty =
      Except.error (insert_transaction_logs metaProbe dbEmpty) ∧
    (insert_transaction_logs metaProbe dbEmpty).ethereum_logs.length =
      dbEmpty.ethereum_logs.length + 1 :=
  partial_failure_keeps_envelope failSwapOnly (Event.swap swapProbe)
    metaProbe (DbOp.insertSwap swapProbe) [] dbEmpty rfl rfl rfl

theorem runTrace_flatMap (pairs : List (Event × LogMeta)) :
    runTrace pairs =
      pairs.flatMap fun p => DbOp.insertLog p.2 :: (payloadOp p.1).toList := by
  induction pairs with
  | nil => rfl
  | cons p rest ih => simp [runTrace, ih]

theorem runTrace_payloads (pairs : List (Event × LogMeta)) :
    (runTrace pairs).filterMap payloadPart =
      pairs.filterMap fun p => payloadOp p.1 := by
  induction pairs with
  | nil => rfl
  | cons p rest ih =>
    obtain ⟨e, m⟩ := p
    cases e <;> simp [runTrace, payloadOp, payloadPart, ih]

theorem decode_events_foldl (pairs : List (Event × LogMeta)) (s : DBState) :
    decode_events noFail (toStream pairs) s =
      Except.ok ((runTrace pairs).foldl (fun t op => applyOp op t) s) := by
  induction pairs generalizing s with
  | nil => rfl
  | cons p rest ih =>
    obtain ⟨e, m⟩ := p
    cases e with
    | swap f => exact ih (insert_swap_event f (insert_transaction_logs m s))
    | burn f => exact ih (insert_burn_event f (insert_transaction_logs m s))
    | mint f => exact ih (insert_mint_event f (insert_transaction_logs m s))
    | flash f => exact ih (insert_flash_event f (insert_transaction_logs m s))
    | other => exact ih (insert_transaction_logs m s)

/-- C7: the loop issues its storage operations strictly sequentially in
stream order — the trace is the in-order concatenation of per-item
blocks, each consisting of that item's envelope insert followed by its
payload insert; the payload inserts, projected from the trace, appear
in exactly stream order; and the final store is the left fold of that
trace, i.e. each operation completes before the next one starts and the
next item is only consumed after the previous item's operations. -/
theorem pipeline_sequential_order (pairs : List (Event × LogMeta)) :
    runTrace pairs =
      (pairs.flatMap fun p => DbOp.insertLog p.2 :: (payloadOp p.1).toList) ∧
    (runTrace pairs).filterMap payloadPart =
      (pairs.filterMap fun p => payloadOp p.1) ∧
    ∀ s, decode_events noFail (toStream pairs) s =
      Except.ok ((runTrace pairs).foldl (fun t op => applyOp op t) s) :=
  ⟨runTrace_flatMap pairs, runTrace_payloads pairs,
    fun s => decode_events_foldl pairs s⟩

theorem applyStmts_cons (t : TableDef) (ts s : List TableDef) :
    applyStmts (t :: ts) s =
      applyStmts ts (if hasTable s t.name then s else s ++ [t]) := rfl

theorem execCreateTable_ifNotExists (t : TableDef) (s : List TableDef) :
    execCreateTable true t s =
      Except.ok (if hasTable s t.name then s else s ++ [t]) := by
  by_cases h : hasTable s t.name <;> simp [execCreateTable, h]

theorem batchExecute_ifNotExists (ts s : List TableDef) :
    batchExecute (ts.map fun t => (true, t)) s =
      Except.ok (applyStmts ts s) := by
  induction ts generalizing s with
  | nil => rfl
  | cons t rest ih =>
    rw [List.map_cons, batchExecute, execCreateTable_ifNotExists]
    show batchExecute (rest.map fun t => (true, t))
      (if hasTable s t.name then s else s ++ [t]) = _
    rw [ih, applyStmts_cons]

theorem hasTable_append (s1 s2 : List TableDef) (n : String) :
    hasTable (s1 ++ s2) n = (hasTable s1 n || hasTable s2 n) := by
  simp [hasTable, List.any_append]

theorem hasTable_applyStmts_mono (ts : List TableDef) (s : List TableDef)
    (n : String) (h : hasTable s n = true) :
    hasTable (applyStmts ts s) n = true := by
  induction ts generalizing s with
  | nil => exact h
  | cons t rest ih =>
    rw [applyStmts_cons]
    apply ih
    by_cases hc : hasTable s t.name
    · rwa [if_pos hc]
    · rw [if_neg hc, hasTable_append, h, Bool.true_or]

theorem hasTable_applyStmts_self (ts : List TableDef) :
    ∀ s : List TableDef, ∀ t ∈ ts, hasTable (applyStmts ts s) t.name = true := by
  induction ts with
  | nil =>
    intro s t ht
    simp at ht
  | cons u rest ih =>
    intro s t ht
    rw [applyStmts_cons]
    rcases List.mem_cons.mp ht with rfl | hmem
    · apply hasTable_applyStmts_mono
      have h1 : hasTable [t] t.name = true := by simp [hasTable]
      by_cases hc : hasTable s t.name
      · rwa [if_pos hc]
      · rw [if_neg hc, hasTable_append, h1, Bool.or_true]
    · exact ih _ t hmem

theorem applyStmts_of_all_present (ts : List TableDef) :
    ∀ s : List TableDef, (∀ t ∈ ts, hasTable s t.name = true) →
      applyStmts ts s = s := by
  induction ts with
  | nil =>
    intro s _
    rfl
  | cons u rest ih =>
    intro s h
    rw [applyStmts_cons, if_pos (h u (by simp))]
    exact ih s fun t ht => h t (List.mem_cons_of_mem u ht)

/-- C8: `create_table` is idempotent — from any store it succeeds with
some resulting schema on which a second call succeeds and changes
nothing; and from an empty store each of the five tables of the batch
exists exactly once afterwards. -/
theorem create_table_idempotent (s : List TableDef) :
    (∃ s1, create_table s = Except.ok s1 ∧ create_table s1 = Except.ok s1) ∧
    (∃ s0, create_table [] = Except.ok s0 ∧
      (schemaStatements.map fun t => s0.countP fun u => u.name == t.name) =
        [1, 1, 1, 1, 1]) := by
  constructor
  · refine ⟨applyStmts schemaStatements s, batchExecute_ifNotExists _ _, ?_⟩
    rw [create_table, batchExecute_ifNotExists,
      applyStmts_of_all_present _ _ (hasTable_applyStmts_self _ _)]
  · exact ⟨schemaStatements, rfl, by decide⟩

